import Mathlib

/-!
Verification of the payment-gateway core: a shallow embedding of the
suffix allocator, the signed-request pipeline, the invoice check
endpoint, the webhook delivery worker, the IP allow-list middleware and
the QRIS codec, with theorems settling the frozen claims about them.

Databases are modelled as lists of typed rows and each database helper
as a pure function on those lists; `Date.now()` is passed in as an
explicit `now : Int` (unix seconds).
-/

/-! ## Pending transactions and suffix allocation (lib/db) -/

/-- A row of `pending_transactions` (the in-flight claim of a suffix for a
principal). -/
structure PendingTx where
  id : String
  username : String
  base_amount : Int
  unique_suffix : Nat
  final_amount : Int
  qris_string : String
  created_at : Int
  expires_at : Int
deriving Repr, DecidableEq

/-- `cleanupExpired`: `DELETE FROM pending_transactions WHERE expires_at < now`
(rows with `expires_at < now` are removed, i.e. a row survives iff
`now ≤ expires_at`). -/
def cleanupExpired (now : Int) (txs : List PendingTx) : List PendingTx :=
  txs.filter (fun t => decide (now ≤ t.expires_at))

/-- `SELECT unique_suffix FROM pending_transactions WHERE username = ?`:
the suffixes currently claimed for a principal. -/
def claimedSuffixes (username : String) (txs : List PendingTx) : List Nat :=
  (txs.filter (fun t => decide (t.username = username))).map (fun t => t.unique_suffix)

/-- The two `for` loops of `getAvailableSuffix`: scan `a, a+1, …, a+n-1`
and return the first element not in `used`. -/
def findFree (used : List Nat) : Nat → Nat → Option Nat
  | _, 0 => none
  | a, n + 1 => if a ∈ used then findFree used (a + 1) n else some a

/-- `getAvailableSuffix` (src/web/src/components/AdminLayout.tsx): GC expired
pending rows, collect the suffixes claimed for the principal, scan
`[1, 500]` and then `[501, 999]` for the first unclaimed integer; `none`
models the thrown `No suffix available` error. -/
def getAvailableSuffix (now : Int) (username : String) (txs : List PendingTx) :
    Option Nat :=
  let used := claimedSuffixes username (cleanupExpired now txs)
  match findFree used 1 500 with
  | some i => some i
  | none => findFree used 501 499

/-- Suffix `j` is claimed by an unexpired pending transaction for `username`. -/
def suffixClaimed (now : Int) (username : String) (txs : List PendingTx) (j : Nat) :
    Prop :=
  ∃ t ∈ txs, t.username = username ∧ now ≤ t.expires_at ∧ t.unique_suffix = j

theorem mem_claimedSuffixes_iff (now : Int) (username : String)
    (txs : List PendingTx) (j : Nat) :
    j ∈ claimedSuffixes username (cleanupExpired now txs) ↔
      suffixClaimed now username txs j := by
  simp only [claimedSuffixes, cleanupExpired, suffixClaimed, List.mem_map,
    List.mem_filter, decide_eq_true_eq]
  constructor
  · rintro ⟨t, ⟨⟨ht, hexp⟩, huser⟩, hsuf⟩
    exact ⟨t, ht, huser, hexp, hsuf⟩
  · rintro ⟨t, ht, huser, hexp, hsuf⟩
    exact ⟨t, ⟨⟨ht, hexp⟩, huser⟩, hsuf⟩

theorem findFree_eq_some (used : List Nat) (n : Nat) :
    ∀ a k, findFree used a n = some k ↔
      (a ≤ k ∧ k < a + n ∧ k ∉ used ∧ ∀ j, a ≤ j → j < k → j ∈ used) := by
  induction n with
  | zero =>
    intro a k
    simp only [findFree]
    constructor
    · intro h; cases h
    · rintro ⟨h1, h2, -⟩; omega
  | succ n ih =>
    intro a k
    simp only [findFree]
    by_cases ha : a ∈ used
    · rw [if_pos ha, ih]
      constructor
      · rintro ⟨h1, h2, h3, h4⟩
        refine ⟨by omega, by omega, h3, fun j hj1 hj2 => ?_⟩
        rcases Nat.eq_or_lt_of_le hj1 with rfl | hj
        · exact ha
        · exact h4 j hj hj2
      · rintro ⟨h1, h2, h3, h4⟩
        have hka : k ≠ a := fun h => h3 (h ▸ ha)
        exact ⟨by omega, by omega, h3, fun j hj1 hj2 => h4 j (by omega) hj2⟩
    · rw [if_neg ha]
      constructor
      · intro h
        injection h with h
        subst h
        exact ⟨le_refl _, by omega, ha, fun j hj1 hj2 => absurd hj2 (by omega)⟩
      · rintro ⟨h1, h2, h3, h4⟩
        rcases Nat.eq_or_lt_of_le h1 with rfl | hk
        · rfl
        · exact absurd (h4 a (le_refl _) hk) ha

theorem findFree_eq_none (used : List Nat) (n : Nat) :
    ∀ a, findFree used a n = none ↔ ∀ j, a ≤ j → j < a + n → j ∈ used := by
  induction n with
  | zero =>
    intro a
    simp only [findFree]
    exact ⟨fun _ j h1 h2 => absurd h2 (by omega), fun _ => trivial⟩
  | succ n ih =>
    intro a
    simp only [findFree]
    by_cases ha : a ∈ used
    · rw [if_pos ha, ih]
      constructor
      · intro h j hj1 hj2
        rcases Nat.eq_or_lt_of_le hj1 with rfl | hj
        · exact ha
        · exact h j hj (by omega)
      · intro h j hj1 hj2
        exact h j (by omega) (by omega)
    · rw [if_neg ha]
      constructor
      · intro h; cases h
      · intro h
        exact absurd (h a (le_refl _) (by omega)) ha

/-- C1: For every principal, `getAvailableSuffix` returns the smallest
integer in `[1, 999]` not claimed by an unexpired pending transaction for
that principal — which is exactly the smallest unclaimed integer of
`[1, 500]` when that range has a hole and otherwise the smallest unclaimed
integer of `[501, 999]`, because the two ranges are scanned in order.  It
returns `1` for a principal with no pending claims, and it fails (`none`)
iff all 999 suffixes are claimed. -/
theorem getAvailableSuffix_spec (now : Int) (username : String)
    (txs : List PendingTx) :
    ((∀ j, ¬ suffixClaimed now username txs j) →
        getAvailableSuffix now username txs = some 1) ∧
    (∀ k, getAvailableSuffix now username txs = some k ↔
        (1 ≤ k ∧ k ≤ 999 ∧ ¬ suffixClaimed now username txs k ∧
          ∀ j, 1 ≤ j → j < k → suffixClaimed now username txs j)) ∧
    (getAvailableSuffix now username txs = none ↔
        ∀ j, 1 ≤ j → j ≤ 999 → suffixClaimed now username txs j) := by
  set used := claimedSuffixes username (cleanupExpired now txs) with hused
  have hmem : ∀ j, j ∈ used ↔ suffixClaimed now username txs j :=
    mem_claimedSuffixes_iff now username txs
  have hmain : ∀ k, getAvailableSuffix now username txs = some k ↔
      (1 ≤ k ∧ k < 1000 ∧ k ∉ used ∧ ∀ j, 1 ≤ j → j < k → j ∈ used) := by
    intro k
    show (match findFree used 1 500 with
      | some i => some i
      | none => findFree used 501 499) = some k ↔ _
    rcases h500 : findFree used 1 500 with _ | i
    · have hall : ∀ j, 1 ≤ j → j < 501 → j ∈ used := by
        have := (findFree_eq_none used 500 1).mp h500
        intro j h1 h2; exact this j h1 (by omega)
      simp only []
      rw [findFree_eq_some]
      constructor
      · rintro ⟨h1, h2, h3, h4⟩
        refine ⟨by omega, by omega, h3, fun j hj1 hj2 => ?_⟩
        by_cases hj : j < 501
        · exact hall j hj1 hj
        · exact h4 j (by omega) hj2
      · rintro ⟨h1, h2, h3, h4⟩
        have hk501 : 501 ≤ k := by
          by_contra hlt
          exact h3 (hall k h1 (by omega))
        exact ⟨hk501, by omega, h3, fun j hj1 hj2 => h4 j (by omega) hj2⟩
    · simp only []
      have hi := (findFree_eq_some used 500 1 i).mp h500
      constructor
      · intro h
        injection h with h
        subst h
        exact ⟨hi.1, by omega, hi.2.2.1, hi.2.2.2⟩
      · rintro ⟨h1, h2, h3, h4⟩
        have : k = i := by
          rcases Nat.lt_trichotomy k i with h | h | h
          · exact absurd (hi.2.2.2 k h1 h) h3
          · exact h
          · exact absurd (h4 i hi.1 h) hi.2.2.1
        rw [this]
  have hnone : getAvailableSuffix now username txs = none ↔
      ∀ j, 1 ≤ j → j ≤ 999 → j ∈ used := by
    show (match findFree used 1 500 with
      | some i => some i
      | none => findFree used 501 499) = none ↔ _
    rcases h500 : findFree used 1 500 with _ | i
    · have hall : ∀ j, 1 ≤ j → j < 501 → j ∈ used := by
        have := (findFree_eq_none used 500 1).mp h500
        intro j h1 h2; exact this j h1 (by omega)
      simp only []
      rw [findFree_eq_none]
      constructor
      · intro h j h1 h2
        by_cases hj : j < 501
        · exact hall j h1 hj
        · exact h j (by omega) (by omega)
      · intro h j h1 h2
        exact h j (by omega) (by omega)
    · simp only []
      have hi := (findFree_eq_some used 500 1 i).mp h500
      constructor
      · intro h; cases h
      · intro h
        exact absurd (h i hi.1 (by omega)) hi.2.2.1
  refine ⟨?_, ?_, ?_⟩
  · intro hnoclaim
    rw [hmain 1]
    exact ⟨le_refl _, by omega, fun hc => hnoclaim 1 ((hmem 1).mp hc),
      fun j hj1 hj2 => absurd hj2 (by omega)⟩
  · intro k
    rw [hmain k]
    constructor
    · rintro ⟨h1, h2, h3, h4⟩
      exact ⟨h1, by omega, fun hc => h3 ((hmem k).mpr hc),
        fun j hj1 hj2 => (hmem j).mp (h4 j hj1 hj2)⟩
    · rintro ⟨h1, h2, h3, h4⟩
      exact ⟨h1, by omega, fun hc => h3 ((hmem k).mp hc),
        fun j hj1 hj2 => (hmem j).mpr (h4 j hj1 hj2)⟩
  · rw [hnone]
    constructor
    · intro h j h1 h2
      exact (hmem j).mp (h j h1 h2)
    · intro h j h1 h2
      exact (hmem j).mpr (h j h1 h2)

/-- Witness for C1: a principal with no pending claims receives suffix 1. -/
theorem getAvailableSuffix_spec_witness :
    getAvailableSuffix 0 "alice" [] = some 1 :=
  (getAvailableSuffix_spec 0 "alice" []).1
    (by intro j; simp [suffixClaimed])

/-! ## Webhook delivery worker (lib/webhook_worker, lib/db) -/

/-- `WEBHOOK_MAX_ATTEMPTS` default. -/
def MAX_ATTEMPTS : Nat := 8

/-- `WEBHOOK_BACKOFF_BASE_SECONDS` default. -/
def BASE_BACKOFF_SECONDS : Int := 60

/-- `backoffSeconds`: `BASE * 2 ^ min(10, max(0, attempt - 1))`
(attempt starts at 1). -/
def backoffSeconds (attempt : Int) : Int :=
  BASE_BACKOFF_SECONDS * 2 ^ (min 10 (max 0 (attempt - 1))).toNat

inductive DeliveryStatus where
  | queued
  | delivered
  | failed
deriving Repr, DecidableEq

/-- A row of `webhook_deliveries`. -/
structure WebhookDelivery where
  id : String
  merchant_id : String
  invoice_id : Option String
  event_type : String
  payload_json : String
  status : DeliveryStatus
  attempt_count : Nat
  next_retry_at : Int
  last_status_code : Option Nat
  last_error : Option String
  response_snippet : Option String
deriving Repr, DecidableEq

/-- `enqueueWebhookDelivery`: the freshly inserted row
(`status = queued, attempt_count = 0, next_retry_at = runAt`). -/
def enqueueWebhookDelivery (id merchant : String) (invoice : Option String)
    (eventType payload : String) (runAt : Int) : WebhookDelivery :=
  { id := id, merchant_id := merchant, invoice_id := invoice,
    event_type := eventType, payload_json := payload,
    status := DeliveryStatus.queued, attempt_count := 0,
    next_retry_at := runAt, last_status_code := none, last_error := none,
    response_snippet := none }

/-- `markWebhookDeliveryResult`.  `nextRetryAt` mirrors the JS value of
`input.next_retry_at`: `none` = `undefined` (field absent), `some none` =
`null` (permanent failure), `some (some t)` = a scheduled time. -/
def markWebhookDeliveryResult (d : WebhookDelivery) (delivered : Bool)
    (statusCode : Option Nat) (error : Option String) (snippet : Option String)
    (nextRetryAt : Option (Option Int)) (now : Int) : WebhookDelivery :=
  let status := if delivered then DeliveryStatus.delivered
    else if nextRetryAt = some none then DeliveryStatus.failed
    else DeliveryStatus.queued
  let nextRetry : Option Int := if delivered then none else
    match nextRetryAt with
    | none => some (now + 60)
    | some none => none
    | some (some t) => some t
  { d with
    status := status
    attempt_count := d.attempt_count + 1
    next_retry_at := nextRetry.getD now
    last_status_code := statusCode
    last_error := error
    response_snippet := snippet }

/-- Per-merchant, per-env webhook configuration (`getMerchantWebhookConfigEnv`);
`webhook_url = none` models a null or blank URL. -/
structure WebhookCfg where
  webhook_url : Option String
  webhook_enabled : Bool
deriving Repr, DecidableEq

/-- The observable outcome of the outbound `fetch` in `deliverOne`. -/
inductive SendOutcome where
  | http (status : Nat) (snippet : Option String)
  | transportError (message : String)
deriving Repr, DecidableEq

/-- `deliverOne`: process one claimed delivery; returns the updated row and
the list of alert types emitted (`WEBHOOK_FAILED` on permanent failure). -/
def deliverOne (d : WebhookDelivery) (cfg : WebhookCfg) (whsec : Option String)
    (outcome : SendOutcome) (now : Int) : WebhookDelivery × List String :=
  if ¬ cfg.webhook_enabled ∨ cfg.webhook_url = none then
    (markWebhookDeliveryResult d false none (some "WEBHOOK_DISABLED") none
      (some none) now, [])
  else match whsec with
  | none =>
    (markWebhookDeliveryResult d false none (some "MISSING_CREDENTIALS") none
      (some none) now, [])
  | some _ =>
    match outcome with
    | SendOutcome.http status snippet =>
      if 200 ≤ status ∧ status < 300 then
        (markWebhookDeliveryResult d true (some status) none snippet none now, [])
      else if MAX_ATTEMPTS ≤ d.attempt_count + 1 then
        (markWebhookDeliveryResult d false (some status)
          (some ("HTTP_" ++ toString status)) snippet (some none) now,
         ["WEBHOOK_FAILED"])
      else
        (markWebhookDeliveryResult d false (some status)
          (some ("HTTP_" ++ toString status)) snippet
          (some (some (now + backoffSeconds (d.attempt_count + 1)))) now, [])
    | SendOutcome.transportError msg =>
      if MAX_ATTEMPTS ≤ d.attempt_count + 1 then
        (markWebhookDeliveryResult d false none (some msg) none (some none) now,
         ["WEBHOOK_FAILED"])
      else
        (markWebhookDeliveryResult d false none (some msg) none
          (some (some (now + backoffSeconds (d.attempt_count + 1)))) now, [])

/-- `getDueWebhookDeliveries` row filter:
`status = 'queued' AND next_retry_at <= now`. -/
def isDueDelivery (now : Int) (d : WebhookDelivery) : Bool :=
  decide (d.status = DeliveryStatus.queued) && decide (d.next_retry_at ≤ now)

/-- The inductive invariant maintained on every webhook delivery row: the
attempt count is bounded by `MAX_ATTEMPTS` (strictly while still queued), a
delivered row recorded a 2xx HTTP status, and a failed row either exhausted
its attempts or was refused for a disabled webhook / missing credentials. -/
def DeliveryInv (d : WebhookDelivery) : Prop :=
  d.attempt_count ≤ MAX_ATTEMPTS ∧
  (d.status = DeliveryStatus.queued → d.attempt_count < MAX_ATTEMPTS) ∧
  (d.status = DeliveryStatus.delivered →
    ∃ c, d.last_status_code = some c ∧ 200 ≤ c ∧ c < 300) ∧
  (d.status = DeliveryStatus.failed →
    d.attempt_count = MAX_ATTEMPTS ∨ d.last_error = some "WEBHOOK_DISABLED" ∨
      d.last_error = some "MISSING_CREDENTIALS")

/-- C4: a freshly enqueued delivery satisfies the delivery invariant, one
worker step (`deliverOne`) on a claimed queued row preserves it — so
`attempt_count ≤ MAX_ATTEMPTS` always, `delivered` rows recorded a 2xx
status, and `failed` rows either exhausted `MAX_ATTEMPTS` attempts or were
refused with `WEBHOOK_DISABLED` / `MISSING_CREDENTIALS` — and the due-work
scan (`status = queued AND next_retry_at <= now`) never selects a delivered
or failed row again. -/
theorem webhookDelivery_invariants :
    (∀ id m inv ev pl runAt,
      DeliveryInv (enqueueWebhookDelivery id m inv ev pl runAt)) ∧
    (∀ d cfg sec out now, d.status = DeliveryStatus.queued → DeliveryInv d →
      DeliveryInv (deliverOne d cfg sec out now).1) ∧
    (∀ now d,
      d.status = DeliveryStatus.delivered ∨ d.status = DeliveryStatus.failed →
      isDueDelivery now d = false) := by
  refine ⟨?_, ?_, ?_⟩
  · intro id m inv ev pl runAt
    simp [DeliveryInv, enqueueWebhookDelivery, MAX_ATTEMPTS]
  · intro d cfg sec out now hq hinv
    obtain ⟨hle, hqlt, hdel, hfail⟩ := hinv
    have hlt : d.attempt_count < MAX_ATTEMPTS := hqlt hq
    have h8 : MAX_ATTEMPTS = 8 := rfl
    unfold deliverOne
    split
    · simp only [markWebhookDeliveryResult, DeliveryInv]
      refine ⟨by omega, ?_, ?_, ?_⟩ <;> simp
    · split
      · simp only [markWebhookDeliveryResult, DeliveryInv]
        refine ⟨by omega, ?_, ?_, ?_⟩ <;> simp
      · split
        · split
          · simp only [markWebhookDeliveryResult, DeliveryInv]
            rename_i status snippet h2xx
            refine ⟨by omega, ?_, ?_, ?_⟩ <;> simp
            exact ⟨h2xx.1, h2xx.2⟩
          · split
            · simp only [markWebhookDeliveryResult, DeliveryInv]
              refine ⟨by omega, ?_, ?_, ?_⟩ <;> simp <;> omega
            · simp only [markWebhookDeliveryResult, DeliveryInv]
              refine ⟨by omega, ?_, ?_, ?_⟩ <;> simp <;> omega
        · split
          · simp only [markWebhookDeliveryResult, DeliveryInv]
            refine ⟨by omega, ?_, ?_, ?_⟩ <;> simp <;> omega
          · simp only [markWebhookDeliveryResult, DeliveryInv]
            refine ⟨by omega, ?_, ?_, ?_⟩ <;> simp <;> omega
  · intro now d h
    rcases h with h | h <;> simp [isDueDelivery, h]

/-- Witness for C4: one failing worker step on a fresh delivery keeps the
invariant. -/
theorem webhookDelivery_invariants_witness :
    DeliveryInv (deliverOne
      (enqueueWebhookDelivery "d1" "m1" none "payment.created" "p" 0)
      ⟨some "https://example.com", true⟩ (some "sec")
      (SendOutcome.http 500 none) 100).1 :=
  webhookDelivery_invariants.2.1 _ _ _ _ 100 rfl
    (webhookDelivery_invariants.1 "d1" "m1" none "payment.created" "p" 0)

/-- C5: a failed attempt with retries remaining is rescheduled at
`now + base * 2^(attempt-1)` with the base defaulting to 60 seconds and the
exponent capped at 10; with defaults the gaps between the first five
attempts are 60, 120, 240 and 480 seconds. -/
theorem webhookBackoff_spec :
    (∀ attempt : Int, 1 ≤ attempt → attempt ≤ 11 →
      backoffSeconds attempt = 60 * 2 ^ (attempt - 1).toNat) ∧
    (∀ attempt : Int, 11 ≤ attempt → backoffSeconds attempt = 60 * 2 ^ 10) ∧
    (∀ d cfg u sec now status snippet,
      cfg.webhook_enabled = true → cfg.webhook_url = some u →
      ¬ (200 ≤ status ∧ status < 300) → d.attempt_count + 1 < MAX_ATTEMPTS →
      (deliverOne d cfg (some sec) (SendOutcome.http status snippet)
          now).1.next_retry_at
        = now + 60 * 2 ^ min 10 d.attempt_count) ∧
    (backoffSeconds 1 = 60 ∧ backoffSeconds 2 = 120 ∧ backoffSeconds 3 = 240 ∧
      backoffSeconds 4 = 480) := by
  refine ⟨?_, ?_, ?_, ?_⟩
  · intro attempt h1 h11
    have hexp : (min 10 (max 0 (attempt - 1))).toNat = (attempt - 1).toNat := by
      omega
    simp [backoffSeconds, BASE_BACKOFF_SECONDS, hexp]
  · intro attempt h11
    have hexp : (min 10 (max 0 (attempt - 1))).toNat = 10 := by omega
    simp [backoffSeconds, BASE_BACKOFF_SECONDS, hexp]
  · intro d cfg u sec now status snippet hen hurl h2xx hlt
    have hcond : ¬ (¬ cfg.webhook_enabled ∨ cfg.webhook_url = none) := by
      simp [hen, hurl]
    unfold deliverOne
    rw [if_neg hcond]
    simp only []
    rw [if_neg h2xx, if_neg (by omega : ¬ MAX_ATTEMPTS ≤ d.attempt_count + 1)]
    have hexp : (min 10 (max 0 ((d.attempt_count : Int) + 1 - 1))).toNat
        = min 10 d.attempt_count := by omega
    simp [markWebhookDeliveryResult, backoffSeconds, BASE_BACKOFF_SECONDS, hexp]
    omega
  · refine ⟨by decide, by decide, by decide, by decide⟩

/-- Witness for C5: the first retry of a fresh delivery is scheduled 60
seconds out. -/
theorem webhookBackoff_spec_witness :
    (deliverOne (enqueueWebhookDelivery "d1" "m1" none "payment.created" "p" 0)
        ⟨some "https://example.com", true⟩ (some "sec")
        (SendOutcome.http 500 none) 5000).1.next_retry_at
      = 5000 + 60 * 2 ^ min 10 0 :=
  webhookBackoff_spec.2.2.1 _ _ "https://example.com" "sec" 5000 500 none rfl
    rfl (by decide) (by decide)

/-! ## Anti-replay nonce store (lib/db) and signed-request pipeline
(gw/security `requireSignedRequest`) -/

/-- A row of `used_nonces` (primary key `(merchant_id, nonce)`). -/
structure NonceEntry where
  merchant_id : String
  nonce : String
  expires_at : Int
deriving Repr, DecidableEq

/-- `DELETE FROM used_nonces WHERE expires_at <= now`: the opportunistic
cleanup performed at the start of `isNonceUsed`; a row survives iff
`now < expires_at`. -/
def cleanupNonces (now : Int) (l : List NonceEntry) : List NonceEntry :=
  l.filter (fun e => decide (now < e.expires_at))

/-- `isNonceUsed`: true for an empty merchant id or nonce, else true iff an
unexpired `(merchant_id, nonce)` row exists after the cleanup. -/
def isNonceUsed (now : Int) (l : List NonceEntry) (merchantId nonce : String) :
    Bool :=
  if merchantId = "" ∨ nonce = "" then true
  else (cleanupNonces now l).any (fun e =>
    decide (e.merchant_id = merchantId) && decide (e.nonce = nonce) &&
      decide (now < e.expires_at))

/-- `markNonceUsed`: `INSERT OR REPLACE INTO used_nonces` keyed on
`(merchant_id, nonce)`. -/
def markNonceUsed (l : List NonceEntry) (merchantId nonce : String)
    (expiresAt : Int) : List NonceEntry :=
  (l.filter (fun e =>
    !(decide (e.merchant_id = merchantId) && decide (e.nonce = nonce)))) ++
    [⟨merchantId, nonce, expiresAt⟩]

/-- ASCII upper-casing, used for `method.toUpperCase()`. -/
def asciiUpperChar (c : Char) : Char :=
  if 'a' ≤ c ∧ c ≤ 'z' then Char.ofNat (c.toNat - 32) else c

def asciiUpper (s : String) : String := ⟨s.data.map asciiUpperChar⟩

/-- ASCII lower-casing, used to model case-insensitive hex comparison. -/
def asciiLowerChar (c : Char) : Char :=
  if 'A' ≤ c ∧ c ≤ 'Z' then Char.ofNat (c.toNat + 32) else c

def asciiLower (s : String) : String := ⟨s.data.map asciiLowerChar⟩

/-- `timingSafeEqualHex` compares the byte buffers decoded from two hex
strings; for well-formed hex this is equality up to letter case. -/
def timingSafeEqualHex (a b : String) : Bool :=
  decide (asciiLower a = asciiLower b)

/-- An inbound gateway request as seen by `requireSignedRequest`, after the
API-key middleware bound `merchantId`.  `tsHeader`: `none` = missing/empty
`x-timestamp`, `some none` = present but not a finite number, `some (some
ts)` = parsed unix seconds.  For nonce and signature, `none` = missing
header. -/
structure GwRequest where
  method : String
  originalUrl : String
  rawBody : String
  merchantId : String
  tsHeader : Option (Option Int)
  nonceHeader : Option String
  sigHeader : Option String

/-- `canonicalString`: `METHOD\nPATH_WITH_QUERY\nTIMESTAMP\nNONCE\nBODY`. -/
def canonicalString (req : GwRequest) (ts : Int) (nonce : String) : String :=
  asciiUpper req.method ++ "\n" ++ req.originalUrl ++ "\n" ++ toString ts ++
    "\n" ++ nonce ++ "\n" ++ req.rawBody

inductive GwError where
  | Unauthenticated
  | MissingSignatureHeaders
  | InvalidTimestamp
  | RequestExpired
  | ReplayDetected
  | NoSigningSecret
  | InvalidSignature
deriving Repr, DecidableEq

/-- HTTP status attached to each pipeline error. -/
def gwErrorHttpStatus : GwError → Nat
  | GwError.Unauthenticated => 401
  | GwError.MissingSignatureHeaders => 400
  | GwError.InvalidTimestamp => 400
  | GwError.RequestExpired => 401
  | GwError.ReplayDetected => 409
  | GwError.NoSigningSecret => 401
  | GwError.InvalidSignature => 401

/-- Stable error code attached to each pipeline error. -/
def gwErrorCode : GwError → String
  | GwError.Unauthenticated => "UNAUTHENTICATED"
  | GwError.MissingSignatureHeaders => "MISSING_SIGNATURE_HEADERS"
  | GwError.InvalidTimestamp => "INVALID_TIMESTAMP"
  | GwError.RequestExpired => "REQUEST_EXPIRED"
  | GwError.ReplayDetected => "REPLAY_DETECTED"
  | GwError.NoSigningSecret => "NO_SIGNING_SECRET"
  | GwError.InvalidSignature => "INVALID_SIGNATURE"

/-- `requireSignedRequest`: the ordered check chain.  `secret` is the result
of `getMerchantSecretForSigning`, `mac sec data` the hex HMAC-SHA256
(abstract).  Returns the verdict (`none` = proceed to the handler) and the
nonce store after the call. -/
def requireSignedRequest (windowSeconds nonceTtlSeconds now : Int)
    (secret : Option String) (mac : String → String → String)
    (req : GwRequest) (store : List NonceEntry) :
    Option GwError × List NonceEntry :=
  if req.merchantId = "" then (some GwError.Unauthenticated, store)
  else match req.tsHeader, req.nonceHeader, req.sigHeader with
  | some tsv, some nonce, some sig =>
    if nonce = "" ∨ sig = "" then (some GwError.MissingSignatureHeaders, store)
    else match tsv with
    | none => (some GwError.InvalidTimestamp, store)
    | some ts =>
      if ts ≤ 0 then (some GwError.InvalidTimestamp, store)
      else if windowSeconds < |now - ts| then
        (some GwError.RequestExpired, store)
      else if isNonceUsed now store req.merchantId nonce then
        (some GwError.ReplayDetected, cleanupNonces now store)
      else match secret with
      | none => (some GwError.NoSigningSecret, cleanupNonces now store)
      | some sec =>
        if timingSafeEqualHex (mac sec (canonicalString req ts nonce)) sig then
          (none, markNonceUsed (cleanupNonces now store) req.merchantId nonce
            (now + nonceTtlSeconds))
        else (some GwError.InvalidSignature, cleanupNonces now store)
  | _, _, _ => (some GwError.MissingSignatureHeaders, store)

/-- A guarded gateway call: the handler (for example invoice creation) runs,
mutating the application state `app`, only when the middleware verdict is
`none`. -/
def handleGateway {σ : Type} (windowSeconds nonceTtlSeconds now : Int)
    (secret : Option String) (mac : String → String → String)
    (req : GwRequest) (store : List NonceEntry) (handler : σ → σ) (app : σ) :
    Option GwError × List NonceEntry × σ :=
  match requireSignedRequest windowSeconds nonceTtlSeconds now secret mac req
      store with
  | (none, store2) => (none, store2, handler app)
  | (some e, store2) => (some e, store2, app)

theorem isNonceUsed_of_entry (now : Int) (store : List NonceEntry)
    (m n : String) (e : NonceEntry) (he : e ∈ store) (hm : e.merchant_id = m)
    (hn : e.nonce = n) (hexp : now < e.expires_at) :
    isNonceUsed now store m n = true := by
  unfold isNonceUsed
  split
  · rfl
  · rw [List.any_eq_true]
    refine ⟨e, ?_, ?_⟩
    · simp [cleanupNonces, List.mem_filter, he, hexp]
    · simp [hm, hn, hexp]

theorem isNonceUsed_eq_false (now : Int) (store : List NonceEntry)
    (m n : String) (hm : m ≠ "") (hn : n ≠ "")
    (h : ∀ e ∈ store, e.merchant_id = m → e.nonce = n → e.expires_at ≤ now) :
    isNonceUsed now store m n = false := by
  unfold isNonceUsed
  rw [if_neg (by simp [hm, hn])]
  rw [List.any_eq_false]
  intro e he
  have he2 : e ∈ store := List.mem_of_mem_filter he
  simp only [Bool.and_eq_true, decide_eq_true_eq, not_and]
  intro h1 h2
  have := h e he2 h1.1 h1.2
  omega

theorem requireSignedRequest_err_store (W ttl now : Int)
    (secret : Option String) (mac : String → String → String)
    (req : GwRequest) (store : List NonceEntry) :
    ∀ e store2,
      requireSignedRequest W ttl now secret mac req store = (some e, store2) →
      store2 = store ∨ store2 = cleanupNonces now store := by
  unfold requireSignedRequest
  split
  · intro e s2 h; rw [Prod.mk.injEq] at h; exact Or.inl h.2.symm
  · split
    · split
      · intro e s2 h; rw [Prod.mk.injEq] at h; exact Or.inl h.2.symm
      · split
        · intro e s2 h; rw [Prod.mk.injEq] at h; exact Or.inl h.2.symm
        · split
          · intro e s2 h; rw [Prod.mk.injEq] at h; exact Or.inl h.2.symm
          · split
            · intro e s2 h; rw [Prod.mk.injEq] at h; exact Or.inl h.2.symm
            · split
              · intro e s2 h; rw [Prod.mk.injEq] at h; exact Or.inr h.2.symm
              · split
                · intro e s2 h; rw [Prod.mk.injEq] at h; exact Or.inr h.2.symm
                · split
                  · intro e s2 h; rw [Prod.mk.injEq] at h; cases h.1
                  · intro e s2 h; rw [Prod.mk.injEq] at h; exact Or.inr h.2.symm
    · intro e s2 h; rw [Prod.mk.injEq] at h; exact Or.inl h.2.symm

theorem requireSignedRequest_replay (W ttl now : Int) (secret : Option String)
    (mac : String → String → String) (req : GwRequest)
    (store : List NonceEntry) (ts : Int) (nonce sig : String)
    (hm : req.merchantId ≠ "") (hts : req.tsHeader = some (some ts))
    (hn : req.nonceHeader = some nonce) (hs : req.sigHeader = some sig)
    (hne : nonce ≠ "") (hse : sig ≠ "") (hpos : 0 < ts)
    (hw : ¬ W < |now - ts|)
    (hused : isNonceUsed now store req.merchantId nonce = true) :
    requireSignedRequest W ttl now secret mac req store
      = (some GwError.ReplayDetected, cleanupNonces now store) := by
  unfold requireSignedRequest
  rw [if_neg hm, hts, hn, hs]
  simp only []
  rw [if_neg (by simp [hne, hse]), if_neg (by omega), if_neg hw, if_pos hused]

theorem requireSignedRequest_ok (W ttl now : Int) (secret : Option String)
    (mac : String → String → String) (req : GwRequest)
    (store : List NonceEntry) (ts : Int) (nonce sig sec : String)
    (hm : req.merchantId ≠ "") (hts : req.tsHeader = some (some ts))
    (hn : req.nonceHeader = some nonce) (hs : req.sigHeader = some sig)
    (hne : nonce ≠ "") (hse : sig ≠ "") (hpos : 0 < ts)
    (hw : ¬ W < |now - ts|)
    (hnu : isNonceUsed now store req.merchantId nonce = false)
    (hsec : secret = some sec)
    (hsig : timingSafeEqualHex (mac sec (canonicalString req ts nonce)) sig
      = true) :
    requireSignedRequest W ttl now secret mac req store
      = (none, markNonceUsed (cleanupNonces now store) req.merchantId nonce
          (now + ttl)) := by
  unfold requireSignedRequest
  rw [if_neg hm, hts, hn, hs, hsec]
  simp only []
  rw [if_neg (by simp [hne, hse]), if_neg (by omega), if_neg hw,
    if_neg (by simp [hnu]), if_pos hsig]

/-- C7: with well-formed signature headers and a positive integer
timestamp, the pipeline rejects with `RequestExpired` exactly when the
absolute skew between the request timestamp and server time exceeds the
window `W`: a skew of exactly `W` is accepted by the timestamp check and a
skew of `W + 1` is rejected. -/
theorem timestampWindow_spec (W ttl now : Int) (secret : Option String)
    (mac : String → String → String) (req : GwRequest)
    (store : List NonceEntry) (ts : Int) (nonce sig : String)
    (hm : req.merchantId ≠ "") (hts : req.tsHeader = some (some ts))
    (hn : req.nonceHeader = some nonce) (hs : req.sigHeader = some sig)
    (hne : nonce ≠ "") (hse : sig ≠ "") (hpos : 0 < ts) :
    (requireSignedRequest W ttl now secret mac req store).1
      = some GwError.RequestExpired ↔ W < |now - ts| := by
  unfold requireSignedRequest
  rw [if_neg hm, hts, hn, hs]
  simp only []
  rw [if_neg (by simp [hne, hse]), if_neg (by omega)]
  by_cases hw : W < |now - ts|
  · rw [if_pos hw]
    simp [hw]
  · rw [if_neg hw]
    simp only [hw, iff_false]
    by_cases hu : isNonceUsed now store req.merchantId nonce
    · rw [if_pos hu]; simp
    · rw [if_neg hu]
      rcases secret with _ | sec
      · simp
      · simp only []
        by_cases hsig :
            timingSafeEqualHex (mac sec (canonicalString req ts nonce)) sig
        · rw [if_pos hsig]; simp
        · rw [if_neg hsig]; simp

/-- Witness for C7: with `W = 60`, a skew of exactly 60 seconds passes the
timestamp check and a skew of 61 seconds is rejected. -/
theorem timestampWindow_spec_witness :
    (requireSignedRequest 60 120 1000 (some "sec") (fun _ _ => "ab")
        ⟨"POST", "/api/gw/invoices", "", "m1", some (some 940), some "n1",
          some "ab"⟩ []).1 ≠ some GwError.RequestExpired ∧
    (requireSignedRequest 60 120 1000 (some "sec") (fun _ _ => "ab")
        ⟨"POST", "/api/gw/invoices", "", "m1", some (some 939), some "n1",
          some "ab"⟩ []).1 = some GwError.RequestExpired := by
  constructor
  · intro h
    have h2 := (timestampWindow_spec 60 120 1000 (some "sec") (fun _ _ => "ab")
      ⟨"POST", "/api/gw/invoices", "", "m1", some (some 940), some "n1",
        some "ab"⟩ [] 940 "n1" "ab" (by decide) rfl rfl rfl (by decide)
      (by decide) (by decide)).mp h
    exact absurd h2 (by decide)
  · exact (timestampWindow_spec 60 120 1000 (some "sec") (fun _ _ => "ab")
      ⟨"POST", "/api/gw/invoices", "", "m1", some (some 939), some "n1",
        some "ab"⟩ [] 939 "n1" "ab" (by decide) rfl rfl rfl (by decide)
      (by decide) (by decide)).mpr (by decide)

/-- C2: a request whose nonce is already held by an unexpired
`(merchant_id, nonce)` row is rejected with HTTP 409 and code
`REPLAY_DETECTED` before the handler runs, leaving the application state
untouched; and of two sequential requests carrying the same merchant and
nonce inside the nonce TTL, exactly one runs its handler — the first
succeeds, the second is rejected as a replay. -/
theorem nonceReplay_spec (σ : Type) :
    (∀ (W ttl now : Int) (secret : Option String)
        (mac : String → String → String) (req : GwRequest)
        (store : List NonceEntry) (handler : σ → σ) (app : σ) (ts : Int)
        (nonce sig : String) (e : NonceEntry),
      req.merchantId ≠ "" → req.tsHeader = some (some ts) →
      req.nonceHeader = some nonce → req.sigHeader = some sig →
      nonce ≠ "" → sig ≠ "" → 0 < ts → ¬ W < |now - ts| →
      e ∈ store → e.merchant_id = req.merchantId → e.nonce = nonce →
      now < e.expires_at →
      handleGateway W ttl now secret mac req store handler app
        = (some GwError.ReplayDetected, cleanupNonces now store, app) ∧
      gwErrorHttpStatus GwError.ReplayDetected = 409 ∧
      gwErrorCode GwError.ReplayDetected = "REPLAY_DETECTED") ∧
    (∀ (W ttl now W2 ttl2 now2 : Int) (sec : String) (secret2 : Option String)
        (mac mac2 : String → String → String) (req req2 : GwRequest)
        (store : List NonceEntry) (handler handler2 : σ → σ) (app app2 : σ)
        (ts ts2 : Int) (nonce sig sig2 : String),
      req.merchantId ≠ "" → req.tsHeader = some (some ts) →
      req.nonceHeader = some nonce → req.sigHeader = some sig →
      nonce ≠ "" → sig ≠ "" → 0 < ts → ¬ W < |now - ts| →
      isNonceUsed now store req.merchantId nonce = false →
      timingSafeEqualHex (mac sec (canonicalString req ts nonce)) sig = true →
      req2.merchantId = req.merchantId → req2.tsHeader = some (some ts2) →
      req2.nonceHeader = some nonce → req2.sigHeader = some sig2 →
      sig2 ≠ "" → 0 < ts2 → ¬ W2 < |now2 - ts2| → now2 < now + ttl →
      (handleGateway W ttl now (some sec) mac req store handler app).1
          = none ∧
      (handleGateway W ttl now (some sec) mac req store handler app).2.2
          = handler app ∧
      handleGateway W2 ttl2 now2 secret2 mac2 req2
          (handleGateway W ttl now (some sec) mac req store handler app).2.1
          handler2 app2
        = (some GwError.ReplayDetected,
            cleanupNonces now2
              (handleGateway W ttl now (some sec) mac req store handler
                  app).2.1,
            app2)) := by
  constructor
  · intro W ttl now secret mac req store handler app ts nonce sig e hm hts hn
      hs hne hse hpos hw he hem hen hexp
    have hused := isNonceUsed_of_entry now store req.merchantId nonce e he hem
      hen hexp
    have hreq := requireSignedRequest_replay W ttl now secret mac req store ts
      nonce sig hm hts hn hs hne hse hpos hw hused
    unfold handleGateway
    rw [hreq]
    exact ⟨rfl, rfl, rfl⟩
  · intro W ttl now W2 ttl2 now2 sec secret2 mac mac2 req req2 store handler
      handler2 app app2 ts ts2 nonce sig sig2 hm hts hn hs hne hse hpos hw hnu
      hsig hm2 hts2 hn2 hs2 hse2 hpos2 hw2 httl
    have hok := requireSignedRequest_ok W ttl now (some sec) mac req store ts
      nonce sig sec hm hts hn hs hne hse hpos hw hnu rfl hsig
    have hgw : handleGateway W ttl now (some sec) mac req store handler app
        = (none, markNonceUsed (cleanupNonces now store) req.merchantId nonce
            (now + ttl), handler app) := by
      unfold handleGateway
      rw [hok]
    rw [hgw]
    refine ⟨rfl, rfl, ?_⟩
    have hmem : (⟨req.merchantId, nonce, now + ttl⟩ : NonceEntry)
        ∈ markNonceUsed (cleanupNonces now store) req.merchantId nonce
            (now + ttl) := by
      unfold markNonceUsed
      exact List.mem_append_right _ (List.mem_singleton_self _)
    have hused2 : isNonceUsed now2
        (markNonceUsed (cleanupNonces now store) req.merchantId nonce
          (now + ttl)) req2.merchantId nonce = true :=
      isNonceUsed_of_entry now2 _ req2.merchantId nonce _ hmem hm2.symm rfl
        httl
    have hreq2 := requireSignedRequest_replay W2 ttl2 now2 secret2 mac2 req2
      (markNonceUsed (cleanupNonces now store) req.merchantId nonce
        (now + ttl)) ts2 nonce sig2 (hm2 ▸ hm) hts2 hn2 hs2 hne hse2 hpos2 hw2
      hused2
    unfold handleGateway
    rw [hreq2]

/-- Witness for C2: a fresh request with nonce `n1` succeeds and runs its
handler; replaying the same merchant and nonce 10 seconds later is rejected
with `ReplayDetected` and does not run the handler. -/
theorem nonceReplay_spec_witness :
    (handleGateway 60 120 1000 (some "sec") (fun _ _ => "ab")
        ⟨"POST", "/api/gw/invoices", "", "m1", some (some 1000), some "n1",
          some "ab"⟩ [] Nat.succ 0).1 = none ∧
    (handleGateway 60 120 1000 (some "sec") (fun _ _ => "ab")
        ⟨"POST", "/api/gw/invoices", "", "m1", some (some 1000), some "n1",
          some "ab"⟩ [] Nat.succ 0).2.2 = Nat.succ 0 ∧
    handleGateway 60 120 1010 (some "sec") (fun _ _ => "cd")
        ⟨"POST", "/api/gw/invoices", "", "m1", some (some 1010), some "n1",
          some "cd"⟩
        (handleGateway 60 120 1000 (some "sec") (fun _ _ => "ab")
          ⟨"POST", "/api/gw/invoices", "", "m1", some (some 1000), some "n1",
            some "ab"⟩ [] Nat.succ 0).2.1 Nat.succ 5
      = (some GwError.ReplayDetected,
          cleanupNonces 1010
            (handleGateway 60 120 1000 (some "sec") (fun _ _ => "ab")
              ⟨"POST", "/api/gw/invoices", "", "m1", some (some 1000),
                some "n1", some "ab"⟩ [] Nat.succ 0).2.1,
          5) :=
  (nonceReplay_spec Nat).2 60 120 1000 60 120 1010 "sec" (some "sec")
    (fun _ _ => "ab") (fun _ _ => "cd")
    ⟨"POST", "/api/gw/invoices", "", "m1", some (some 1000), some "n1",
      some "ab"⟩
    ⟨"POST", "/api/gw/invoices", "", "m1", some (some 1010), some "n1",
      some "cd"⟩
    [] Nat.succ Nat.succ 0 5 1000 1010 "n1" "ab" "cd" (by decide) rfl rfl rfl
    (by decide) (by decide) (by decide) (by decide) (by decide) (by decide)
    rfl rfl rfl rfl (by decide) (by decide) (by decide) (by decide)

/-- C10: a request that fails any check of the signed-request pipeline
marks no nonce as used — the set of unexpired nonce rows is exactly what it
was before the call (the only store writes on a failing path are the
opportunistic deletions of already-expired rows) — and the same nonce is
still accepted by a later correctly signed request from the same
merchant. -/
theorem nonceNotMarkedOnFailure_spec :
    (∀ (W ttl now : Int) (secret : Option String)
        (mac : String → String → String) (req : GwRequest)
        (store store2 : List NonceEntry) (e : GwError),
      requireSignedRequest W ttl now secret mac req store = (some e, store2) →
      cleanupNonces now store2 = cleanupNonces now store) ∧
    (∀ (W ttl now W2 ttl2 now2 : Int) (secret : Option String) (sec : String)
        (mac mac2 : String → String → String) (req req2 : GwRequest)
        (store store2 : List NonceEntry) (e : GwError) (ts2 : Int)
        (nonce : String),
      requireSignedRequest W ttl now secret mac req store = (some e, store2) →
      req.nonceHeader = some nonce →
      req2.merchantId = req.merchantId → req2.merchantId ≠ "" → nonce ≠ "" →
      req2.tsHeader = some (some ts2) → req2.nonceHeader = some nonce →
      req2.sigHeader = some (mac2 sec (canonicalString req2 ts2 nonce)) →
      mac2 sec (canonicalString req2 ts2 nonce) ≠ "" → 0 < ts2 →
      ¬ W2 < |now2 - ts2| →
      (∀ en ∈ store, en.merchant_id = req2.merchantId → en.nonce = nonce →
        en.expires_at ≤ now2) →
      (requireSignedRequest W2 ttl2 now2 (some sec) mac2 req2 store2).1
        = none) := by
  constructor
  · intro W ttl now secret mac req store store2 e h
    rcases requireSignedRequest_err_store W ttl now secret mac req store e
        store2 h with h2 | h2
    · rw [h2]
    · rw [h2]
      simp [cleanupNonces, List.filter_filter]
  · intro W ttl now W2 ttl2 now2 secret sec mac mac2 req req2 store store2 e
      ts2 nonce hfail hn hm2 hm2ne hne hts2 hn2 hs2 hse2 hpos2 hw2 hstore
    have hsub : ∀ en ∈ store2, en ∈ store := by
      rcases requireSignedRequest_err_store W ttl now secret mac req store e
          store2 hfail with h2 | h2
      · intro en hen; rw [h2] at hen; exact hen
      · intro en hen
        rw [h2] at hen
        exact List.mem_of_mem_filter hen
    have hnu : isNonceUsed now2 store2 req2.merchantId nonce = false :=
      isNonceUsed_eq_false now2 store2 req2.merchantId nonce hm2ne hne
        (fun en hen h1 h2 => hstore en (hsub en hen) h1 h2)
    have hok := requireSignedRequest_ok W2 ttl2 now2 (some sec) mac2 req2
      store2 ts2 nonce (mac2 sec (canonicalString req2 ts2 nonce)) sec hm2ne
      hts2 hn2 hs2 hne hse2 hpos2 hw2 hnu rfl (by simp [timingSafeEqualHex])
    rw [hok]

/-- Witness for C10: a request rejected for a bad signature does not consume
nonce `n1`; a correctly signed request with the same nonce one second later
is accepted. -/
theorem nonceNotMarkedOnFailure_witness :
    (requireSignedRequest 60 120 1001 (some "sec") (fun _ _ => "ab")
        ⟨"POST", "/api/gw/invoices", "", "m1", some (some 1001), some "n1",
          some "ab"⟩ []).1 = none :=
  nonceNotMarkedOnFailure_spec.2 60 120 1000 60 120 1001 (some "sec") "sec"
    (fun _ _ => "ab") (fun _ _ => "ab")
    ⟨"POST", "/api/gw/invoices", "", "m1", some (some 1000), some "n1",
      some "cd"⟩
    ⟨"POST", "/api/gw/invoices", "", "m1", some (some 1001), some "n1",
      some "ab"⟩
    [] [] GwError.InvalidSignature 1001 "n1" (by decide) rfl rfl (by decide)
    (by decide) rfl rfl rfl (by decide) (by decide) (by decide)
    (by intro en hen; cases hen)

/-! ## Invoices and the check endpoint (gw/invoices `checkInvoice`,
lib/db invoice helpers) -/

inductive InvoiceStatus where
  | created
  | pending
  | paid
  | expired
  | refunded
deriving Repr, DecidableEq

/-- A row of `invoices`. -/
structure Invoice where
  id : String
  merchant_id : String
  username : String
  reference_id : Option String
  base_amount : Int
  unique_suffix : Nat
  final_amount : Int
  status : InvoiceStatus
  qris_string : String
  created_at : Int
  expires_at : Int
  paid_at : Option Int
  metadata_json : Option String
deriving Repr, DecidableEq

/-- A row of `paid_transactions` (the short-TTL success cache). -/
structure PaidTx where
  id : String
  username : String
  final_amount : Int
  paid_at : Int
  expires_at : Int
deriving Repr, DecidableEq

/-- A row of `invoice_events` (payload blob elided — opaque to the claims). -/
structure InvoiceEvent where
  id : String
  invoice_id : String
  merchant_id : String
  event_type : String
  created_at : Int
deriving Repr, DecidableEq

/-- `SELECT * FROM invoices WHERE id = ? AND merchant_id = ?`. -/
def getInvoiceById (invs : List Invoice) (invoiceId merchantId : String) :
    Option Invoice :=
  invs.find? (fun i =>
    decide (i.id = invoiceId) && decide (i.merchant_id = merchantId))

/-- `updateInvoiceStatus`: `UPDATE invoices SET status = ?` (and `paid_at`
when moving to `paid`) `WHERE id = ? AND merchant_id = ?` — note: no
`WHERE status = <expected>` guard. -/
def updateInvoiceStatus (invs : List Invoice) (invoiceId merchantId : String)
    (status : InvoiceStatus) (paidAt : Option Int) (now : Int) :
    List Invoice :=
  invs.map (fun i =>
    if i.id = invoiceId ∧ i.merchant_id = merchantId then
      if status = InvoiceStatus.paid then
        { i with status := status, paid_at := some (paidAt.getD now) }
      else { i with status := status }
    else i)

/-- An entry of the upstream credit history; `kredit` is the numeric amount
obtained by stripping the dots from the upstream `kredit` string, `status`
is the upstream direction field (`"IN"` = credit in). -/
structure CreditEntry where
  kredit : Int
  status : String
deriving Repr, DecidableEq

/-- The persistent state touched by the check endpoint. -/
structure GatewayState where
  invoices : List Invoice
  pendings : List PendingTx
  paids : List PaidTx
  events : List InvoiceEvent
  deliveries : List WebhookDelivery
deriving Repr, DecidableEq

/-- The JSON body returned by `checkInvoice`. -/
inductive CheckResult where
  | notFound
  | paid (finalAmount : Int) (paidAt : Int)
  | expired
  | missing
  | pending (finalAmount : Int) (expiresIn : Int)
deriving Repr, DecidableEq

/-- `PAID_EXPIRY_SECONDS` default (TTL of the paid-transaction cache). -/
def PAID_EXPIRY_SECONDS : Int := 3600

/-- `checkInvoice` (gw/invoices): the payment-status poll.  `history` is the
upstream credit history for the caller-supplied principal, `cfg` the
merchant webhook config for the request env, `eid`/`did` the fresh
`randomUUID` values for the event and delivery rows, `username` the
caller-supplied principal. -/
def checkInvoice (now : Int) (merchantId invoiceId username : String)
    (history : List CreditEntry) (cfg : WebhookCfg) (eid did : String)
    (st : GatewayState) : CheckResult × GatewayState :=
  match getInvoiceById st.invoices invoiceId merchantId with
  | none => (CheckResult.notFound, st)
  | some inv =>
    match st.paids.find? (fun p => decide (p.id = invoiceId)) with
    | some paidTx =>
      if inv.status ≠ InvoiceStatus.paid then
        let newDeliveries :=
          if cfg.webhook_enabled ∧ cfg.webhook_url ≠ none then
            [enqueueWebhookDelivery did merchantId (some invoiceId)
              "payment.paid" "" now]
          else []
        (CheckResult.paid paidTx.final_amount paidTx.paid_at,
         { st with
            invoices := updateInvoiceStatus st.invoices invoiceId merchantId
              InvoiceStatus.paid (some paidTx.paid_at) now
            events := st.events ++
              [⟨eid, invoiceId, merchantId, "payment.paid", now⟩]
            deliveries := st.deliveries ++ newDeliveries })
      else (CheckResult.paid paidTx.final_amount paidTx.paid_at, st)
    | none =>
      match st.pendings.find? (fun t => decide (t.id = invoiceId)) with
      | none =>
        (if inv.status = InvoiceStatus.expired then CheckResult.expired
         else CheckResult.missing, st)
      | some pending =>
        if pending.expires_at < now then
          if inv.status ≠ InvoiceStatus.expired then
            let newDeliveries :=
              if cfg.webhook_enabled ∧ cfg.webhook_url ≠ none then
                [enqueueWebhookDelivery did merchantId (some invoiceId)
                  "payment.expired" "" now]
              else []
            (CheckResult.expired,
             { st with
                pendings := st.pendings.filter
                  (fun t => !decide (t.id = invoiceId))
                invoices := updateInvoiceStatus st.invoices invoiceId
                  merchantId InvoiceStatus.expired none now
                events := st.events ++
                  [⟨eid, invoiceId, merchantId, "payment.expired", now⟩]
                deliveries := st.deliveries ++ newDeliveries })
          else
            (CheckResult.expired,
             { st with
                pendings := st.pendings.filter
                  (fun t => !decide (t.id = invoiceId)) })
        else
          match history.find? (fun h =>
              decide (h.kredit = pending.final_amount) &&
                decide (h.status = "IN")) with
          | some _ =>
            let newDeliveries :=
              if cfg.webhook_enabled ∧ cfg.webhook_url ≠ none then
                [enqueueWebhookDelivery did merchantId (some invoiceId)
                  "payment.paid" "" now]
              else []
            (CheckResult.paid pending.final_amount now,
             { st with
                pendings := st.pendings.filter
                  (fun t => !decide (t.id = invoiceId))
                paids := st.paids ++
                  [⟨invoiceId, username, pending.final_amount, now,
                    now + PAID_EXPIRY_SECONDS⟩]
                invoices := updateInvoiceStatus st.invoices invoiceId
                  merchantId InvoiceStatus.paid (some now) now
                events := st.events ++
                  [⟨eid, invoiceId, merchantId, "payment.paid", now⟩]
                deliveries := st.deliveries ++ newDeliveries })
          | none =>
            (CheckResult.pending pending.final_amount
              (pending.expires_at - now), st)

theorem getInvoiceById_eq_some (invs : List Invoice)
    (invoiceId merchantId : String) (inv : Invoice)
    (h : getInvoiceById invs invoiceId merchantId = some inv) :
    inv ∈ invs ∧ inv.id = invoiceId ∧ inv.merchant_id = merchantId := by
  unfold getInvoiceById at h
  have hm := List.mem_of_find?_eq_some h
  have hp := List.find?_some h
  simp only [Bool.and_eq_true, decide_eq_true_eq] at hp
  exact ⟨hm, hp.1, hp.2⟩

/-- Counterexample for C3: `updateInvoiceStatus` carries no
`WHERE status = <expected>` guard — it moves an `expired` invoice straight
to `paid` — and the check endpoint's paid-cache branch, guarded only by
`inv.status ≠ paid`, transitions an `expired` (terminal) invoice to `paid`
(another terminal state). -/
theorem invoiceStatusGuard_counterexample :
    (updateInvoiceStatus
        [⟨"i1", "m1", "alice", none, 10000, 1, 10001, InvoiceStatus.expired,
          "q", 0, 600, none, none⟩] "i1" "m1" InvoiceStatus.paid (some 500)
        1000).map Invoice.status = [InvoiceStatus.paid] ∧
    (checkInvoice 1000 "m1" "i1" "alice" [] ⟨none, false⟩ "e1" "d1"
        ⟨[⟨"i1", "m1", "alice", none, 10000, 1, 10001, InvoiceStatus.expired,
            "q", 0, 600, none, none⟩], [],
          [⟨"i1", "alice", 10001, 500, 4100⟩], [], []⟩).2.invoices.map
        Invoice.status = [InvoiceStatus.paid] := by
  constructor
  · decide
  · decide

/-- C3 (amended): status updates match on invoice id and merchant only —
there is no `WHERE status = <expected>` guard, so `updateInvoiceStatus`
installs the requested status whatever the previous status was — and in the
check endpoint's paid-cache branch the only guard is `status ≠ paid`, so an
invoice in the terminal state `expired` with a paid-cache entry is moved to
the other terminal state `paid`. -/
theorem invoiceStatusGuard_amended :
    (∀ (invs : List Invoice) (invoiceId merchantId : String)
        (stNew : InvoiceStatus) (paidAt : Option Int) (now : Int)
        (i : Invoice),
      i ∈ invs → i.id = invoiceId → i.merchant_id = merchantId →
      ((stNew = InvoiceStatus.paid →
        { i with status := stNew, paid_at := some (paidAt.getD now) }
          ∈ updateInvoiceStatus invs invoiceId merchantId stNew paidAt now) ∧
       (stNew ≠ InvoiceStatus.paid →
        { i with status := stNew }
          ∈ updateInvoiceStatus invs invoiceId merchantId stNew paidAt
              now))) ∧
    (∀ (now : Int) (merchantId invoiceId username : String)
        (history : List CreditEntry) (cfg : WebhookCfg) (eid did : String)
        (st : GatewayState) (inv : Invoice) (paidTx : PaidTx),
      getInvoiceById st.invoices invoiceId merchantId = some inv →
      st.paids.find? (fun p => decide (p.id = invoiceId)) = some paidTx →
      inv.status = InvoiceStatus.expired →
      (checkInvoice now merchantId invoiceId username history cfg eid did
          st).1 = CheckResult.paid paidTx.final_amount paidTx.paid_at ∧
      { inv with
          status := InvoiceStatus.paid
          paid_at := some paidTx.paid_at }
        ∈ (checkInvoice now merchantId invoiceId username history cfg eid did
            st).2.invoices) := by
  constructor
  · intro invs invoiceId merchantId stNew paidAt now i hi hid hmid
    constructor
    · intro hpaid
      subst hpaid
      exact List.mem_map.mpr ⟨i, hi, by simp [hid, hmid]⟩
    · intro hne
      exact List.mem_map.mpr ⟨i, hi, by simp [hid, hmid, hne]⟩
  · intro now merchantId invoiceId username history cfg eid did st inv paidTx
      hinv hpaid hexp
    obtain ⟨hmem, hid, hmid⟩ := getInvoiceById_eq_some _ _ _ _ hinv
    unfold checkInvoice
    rw [hinv, hpaid]
    simp only []
    rw [if_pos (by simp [hexp])]
    refine ⟨rfl, ?_⟩
    exact List.mem_map.mpr ⟨inv, hmem, by simp [hid, hmid]⟩

/-- Witness for the amended C3: the concrete expired invoice of the
counterexample is indeed reported and recorded as paid by the paid-cache
branch. -/
theorem invoiceStatusGuard_amended_witness :
    (checkInvoice 1000 "m1" "i1" "alice" [] ⟨none, false⟩ "e1" "d1"
        ⟨[⟨"i1", "m1", "alice", none, 10000, 1, 10001, InvoiceStatus.expired,
            "q", 0, 600, none, none⟩], [],
          [⟨"i1", "alice", 10001, 500, 4100⟩], [], []⟩).1
      = CheckResult.paid 10001 500 ∧
    (⟨"i1", "m1", "alice", none, 10000, 1, 10001, InvoiceStatus.paid, "q", 0,
        600, some 500, none⟩ : Invoice)
      ∈ (checkInvoice 1000 "m1" "i1" "alice" [] ⟨none, false⟩ "e1" "d1"
          ⟨[⟨"i1", "m1", "alice", none, 10000, 1, 10001,
              InvoiceStatus.expired, "q", 0, 600, none, none⟩], [],
            [⟨"i1", "alice", 10001, 500, 4100⟩], [], []⟩).2.invoices :=
  invoiceStatusGuard_amended.2 1000 "m1" "i1" "alice" [] ⟨none, false⟩ "e1"
    "d1"
    ⟨[⟨"i1", "m1", "alice", none, 10000, 1, 10001, InvoiceStatus.expired,
        "q", 0, 600, none, none⟩], [],
      [⟨"i1", "alice", 10001, 500, 4100⟩], [], []⟩
    ⟨"i1", "m1", "alice", none, 10000, 1, 10001, InvoiceStatus.expired, "q",
      0, 600, none, none⟩
    ⟨"i1", "alice", 10001, 500, 4100⟩ rfl rfl rfl

/-- C6: checking a pending, non-expired invoice (no paid-cache entry) with
webhooks configured reports `paid` iff the upstream history contains an
entry whose amount equals `final_amount` exactly with status `"IN"`; on a
match the pending row is deleted, a paid-transaction with TTL 3600 s is
cached, the invoice moves to `paid` with `paid_at = now`, and a
`payment.paid` event and webhook delivery are appended; with no match the
call returns `pending` with `expires_in = pending.expires_at - now` and the
state is unchanged. -/
theorem checkInvoice_poll_spec (now : Int)
    (merchantId invoiceId username : String) (history : List CreditEntry)
    (cfg : WebhookCfg) (eid did : String) (st : GatewayState) (inv : Invoice)
    (pending : PendingTx)
    (hinv : getInvoiceById st.invoices invoiceId merchantId = some inv)
    (hst : inv.status = InvoiceStatus.pending)
    (hnopaid : st.paids.find? (fun p => decide (p.id = invoiceId)) = none)
    (hpend : st.pendings.find? (fun t => decide (t.id = invoiceId))
      = some pending)
    (hnotexp : ¬ pending.expires_at < now)
    (hwh : cfg.webhook_enabled = true) (hurl : cfg.webhook_url ≠ none) :
    ((checkInvoice now merchantId invoiceId username history cfg eid did
        st).1 = CheckResult.paid pending.final_amount now ↔
      ∃ h ∈ history, h.kredit = pending.final_amount ∧ h.status = "IN") ∧
    ((∃ h ∈ history, h.kredit = pending.final_amount ∧ h.status = "IN") →
      checkInvoice now merchantId invoiceId username history cfg eid did st
        = (CheckResult.paid pending.final_amount now,
           { st with
              pendings := st.pendings.filter
                (fun t => !decide (t.id = invoiceId))
              paids := st.paids ++
                [⟨invoiceId, username, pending.final_amount, now,
                  now + 3600⟩]
              invoices := updateInvoiceStatus st.invoices invoiceId
                merchantId InvoiceStatus.paid (some now) now
              events := st.events ++
                [⟨eid, invoiceId, merchantId, "payment.paid", now⟩]
              deliveries := st.deliveries ++
                [enqueueWebhookDelivery did merchantId (some invoiceId)
                  "payment.paid" "" now] }) ∧
      { inv with status := InvoiceStatus.paid, paid_at := some now }
        ∈ updateInvoiceStatus st.invoices invoiceId merchantId
            InvoiceStatus.paid (some now) now) ∧
    ((¬ ∃ h ∈ history, h.kredit = pending.final_amount ∧ h.status = "IN") →
      checkInvoice now merchantId invoiceId username history cfg eid did st
        = (CheckResult.pending pending.final_amount
            (pending.expires_at - now), st)) := by
  obtain ⟨hmem, hid, hmid⟩ := getInvoiceById_eq_some _ _ _ _ hinv
  have hne : (∃ h ∈ history, h.kredit = pending.final_amount ∧
      h.status = "IN") ↔
      (history.find? (fun h => decide (h.kredit = pending.final_amount) &&
        decide (h.status = "IN"))).isSome := by
    rw [List.find?_isSome]
    constructor
    · rintro ⟨h, hh, h1, h2⟩
      exact ⟨h, hh, by simp [h1, h2]⟩
    · rintro ⟨h, hh, hp⟩
      simp only [Bool.and_eq_true, decide_eq_true_eq] at hp
      exact ⟨h, hh, hp.1, hp.2⟩
  unfold checkInvoice
  rw [hinv, hnopaid, hpend]
  simp only []
  rw [if_neg hnotexp]
  rcases hfind : history.find? (fun h =>
      decide (h.kredit = pending.final_amount) &&
        decide (h.status = "IN")) with _ | entry
  · rw [hfind]
    simp only []
    refine ⟨?_, ?_, ?_⟩
    · simp [hne, hfind]
    · intro hex
      exact absurd (hne.mp hex) (by simp [hfind])
    · intro _
      trivial
  · rw [hfind]
    simp only []
    rw [if_pos ⟨hwh, hurl⟩]
    refine ⟨?_, ?_, ?_⟩
    · simp [hne, hfind]
    · intro _
      refine ⟨rfl, ?_⟩
      exact List.mem_map.mpr ⟨inv, hmem, by simp [hid, hmid]⟩
    · intro hnex
      exact absurd (hne.mpr (by simp [hfind])) hnex

/-- Witness for C6: a pending invoice with a matching upstream `IN` credit
of exactly the final amount is reported paid. -/
theorem checkInvoice_poll_spec_witness :
    (checkInvoice 100 "m1" "i1" "alice" [⟨10001, "IN"⟩]
        ⟨some "https://x", true⟩ "e1" "d1"
        ⟨[⟨"i1", "m1", "alice", none, 10000, 1, 10001, InvoiceStatus.pending,
            "q", 0, 600, none, none⟩],
          [⟨"i1", "alice", 10000, 1, 10001, "q", 0, 600⟩], [], [], []⟩).1
      = CheckResult.paid 10001 100 ↔
      ∃ h ∈ [(⟨10001, "IN"⟩ : CreditEntry)], h.kredit = 10001 ∧
        h.status = "IN" :=
  (checkInvoice_poll_spec 100 "m1" "i1" "alice" [⟨10001, "IN"⟩]
    ⟨some "https://x", true⟩ "e1" "d1"
    ⟨[⟨"i1", "m1", "alice", none, 10000, 1, 10001, InvoiceStatus.pending,
        "q", 0, 600, none, none⟩],
      [⟨"i1", "alice", 10000, 1, 10001, "q", 0, 600⟩], [], [], []⟩
    ⟨"i1", "m1", "alice", none, 10000, 1, 10001, InvoiceStatus.pending, "q",
      0, 600, none, none⟩
    ⟨"i1", "alice", 10000, 1, 10001, "q", 0, 600⟩
    rfl rfl rfl rfl (by decide) rfl (by decide)).1

/-! ## Per-merchant IP allow-list middleware (gw router) -/

/-- JS `String.split(sep)` on a list of characters (`"".split(s) = [""]`). -/
def splitOnChar (sep : Char) (l : List Char) : List (List Char) :=
  l.foldr (fun c acc =>
    if c = sep then [] :: acc
    else (c :: acc.headD []) :: acc.tail) [[]]

/-- JS `String.trim()` (spaces suffice for the addresses involved). -/
def trimChars (l : List Char) : List Char :=
  ((l.dropWhile (fun c => c = ' ')).reverse.dropWhile
    (fun c => c = ' ')).reverse

/-- First `x-forwarded-for` value: `String(header || '').split(',')[0].trim()`
(empty when the header is absent or blank). -/
def firstForwardedFor (h : String) : List Char :=
  trimChars ((splitOnChar ',' h.data).headD [])

/-- The candidate client address: first `x-forwarded-for` value when
non-empty, else the connection peer (`req.ip`). -/
def clientIpRaw (xffHeader peerIp : String) : List Char :=
  let xff := firstForwardedFor xffHeader
  if xff = [] then peerIp.data else xff

/-- Strip an IPv4-mapped IPv6 marker: `ip.startsWith('::ffff:')` ⇒
`ip.slice(7)`. -/
def unmapIp (l : List Char) : List Char :=
  if l.take 7 = "::ffff:".data then l.drop 7 else l

/-- Parse a 1-3 digit decimal component. -/
def parseDecimal (l : List Char) : Option Nat :=
  if l ≠ [] ∧ l.length ≤ 3 ∧ l.all (fun c => c.isDigit) then
    some (l.foldl (fun a c => a * 10 + (c.toNat - 48)) 0)
  else none

/-- Parse a dotted-quad IPv4 address to its 32-bit value. -/
def parseIPv4 (l : List Char) : Option Nat :=
  match (splitOnChar '.' l).mapM parseDecimal with
  | some [a, b, c, d] =>
    if a ≤ 255 ∧ b ≤ 255 ∧ c ≤ 255 ∧ d ≤ 255 then
      some (((a * 256 + b) * 256 + c) * 256 + d)
    else none
  | _ => none

/-- One configured allow-list entry matches the parsed client address: a
`base/bits` CIDR matches when the first `bits` bits agree, a single address
matches on equality of the parsed addresses, and an unparsable entry
matches nothing (the middleware's `catch` yields false). -/
def entryMatches (clientIp : Nat) (entry : String) : Bool :=
  match splitOnChar '/' (trimChars entry.data) with
  | [single] =>
    match parseIPv4 single with
    | some t => decide (clientIp = t)
    | none => false
  | [ipPart, bitsPart] =>
    match parseIPv4 ipPart, parseDecimal bitsPart with
    | some base, some bits =>
      if bits ≤ 32 then
        decide (clientIp / 2 ^ (32 - bits) = base / 2 ^ (32 - bits))
      else false
    | _, _ => false
  | _ => false

inductive IpCheckResult where
  | skipped
  | allowed
  | rejected (message : String)
deriving Repr, DecidableEq

/-- The per-merchant IP allow-list middleware: skip when disabled; reject an
enabled-but-empty list; otherwise resolve the client address, parse it, and
require a match against at least one entry. -/
def ipWhitelistCheck (enabled : Bool) (entries : List String)
    (xffHeader peerIp : String) : IpCheckResult :=
  if ¬ enabled then IpCheckResult.skipped
  else if entries = [] then
    IpCheckResult.rejected "IP whitelist enabled but empty"
  else
    let ip := unmapIp (clientIpRaw xffHeader peerIp)
    match parseIPv4 ip with
    | none => IpCheckResult.rejected "Cannot parse client IP"
    | some v =>
      if entries.any (fun e => entryMatches v e) then IpCheckResult.allowed
      else IpCheckResult.rejected "Client IP not in whitelist"

/-- C8: with the allow-list enabled, an empty configured list rejects with
`IP_NOT_ALLOWED` (never allow-all); with a non-empty list the request passes
the IP check iff the client address — the first `x-forwarded-for` value
when present, else the connection peer, with an IPv4-mapped prefix
stripped — matches at least one configured entry (single address or CIDR);
and the address-selection really does fall back to the peer on an empty
header and strips the `::ffff:` marker. -/
theorem ipWhitelist_spec :
    (∀ (xffHeader peerIp : String),
      ipWhitelistCheck true [] xffHeader peerIp
        = IpCheckResult.rejected "IP whitelist enabled but empty") ∧
    (∀ (entries : List String) (xffHeader peerIp : String) (v : Nat),
      entries ≠ [] →
      parseIPv4 (unmapIp (clientIpRaw xffHeader peerIp)) = some v →
      (ipWhitelistCheck true entries xffHeader peerIp = IpCheckResult.allowed
        ↔ ∃ e ∈ entries, entryMatches v e = true)) ∧
    (∀ peerIp : String, clientIpRaw "" peerIp = peerIp.data) ∧
    (∀ (xffHeader peerIp : String), firstForwardedFor xffHeader ≠ [] →
      clientIpRaw xffHeader peerIp = firstForwardedFor xffHeader) ∧
    (∀ l : List Char, unmapIp ("::ffff:".data ++ l) = l) := by
  refine ⟨?_, ?_, ?_, ?_, ?_⟩
  · intro x p
    rfl
  · intro entries x p v hne hv
    unfold ipWhitelistCheck
    rw [if_neg (by simp), if_neg hne]
    simp only []
    rw [hv]
    simp only []
    by_cases hany : entries.any (fun e => entryMatches v e)
    · rw [if_pos hany]
      rw [List.any_eq_true] at hany
      exact iff_of_true rfl hany
    · rw [if_neg hany]
      rw [List.any_eq_true] at hany
      constructor
      · intro h
        cases h
      · intro h
        exact absurd h hany
  · intro p
    rfl
  · intro x p hne
    unfold clientIpRaw
    rw [if_neg hne]
  · intro l
    have h7 : ("::ffff:".data).length = 7 := rfl
    unfold unmapIp
    rw [← h7, List.take_left, if_pos rfl, List.drop_left]

/-- Witness for C8: client `192.168.1.5` taken from the first
`x-forwarded-for` value matches the CIDR entry `192.168.0.0/16`. -/
theorem ipWhitelist_spec_witness :
    ipWhitelistCheck true ["10.0.0.0/8", "192.168.0.0/16"]
      "192.168.1.5, 70.1.2.3" "9.9.9.9" = IpCheckResult.allowed :=
  (ipWhitelist_spec.2.1 ["10.0.0.0/8", "192.168.0.0/16"]
    "192.168.1.5, 70.1.2.3" "9.9.9.9" 3232235781 (by decide)
    (by decide)).mpr (by decide)

/-! ## QRIS codec.  The qris library (`lib/qris`) is imported by the
provided sources but its implementation file is not among them, so the
codec is modelled from the spec (§4.1): TLV parsing, amount injection at
tag 54, dynamic switch at tag 01, and CRC-16/X.25 recomputation at
tag 63. -/

/-- An ASCII decimal digit (used for the two-digit TLV length field). -/
def isDigitChar (c : Char) : Bool :=
  decide (48 ≤ c.toNat ∧ c.toNat ≤ 57)

/-- The ASCII digit character for `d % 10`. -/
def digitChar (d : Nat) : Char := Char.ofNat (48 + d % 10)

/-- Modelled from the spec: parse an EMV-style TLV payload — two-digit
ASCII tag, two-digit ASCII length, value — into ordered records,
preserving order; `none` on malformed input.  Structural recursion on a
fuel counter (one unit per record); `parseTLV` supplies enough fuel. -/
def parseTLVFuel : Nat → List Char → Option (List (List Char × List Char))
  | _, [] => some []
  | fuel + 1, t1 :: t2 :: l1 :: l2 :: rest =>
    if isDigitChar l1 ∧ isDigitChar l2 then
      let len := (l1.toNat - 48) * 10 + (l2.toNat - 48)
      if len ≤ rest.length then
        match parseTLVFuel fuel (rest.drop len) with
        | some rs => some (([t1, t2], rest.take len) :: rs)
        | none => none
      else none
    else none
  | _, _ => none

/-- Modelled from the spec: the TLV parser of the missing `lib/qris`
(each record consumes at least one character, so `l.length` is enough
fuel). -/
def parseTLV (l : List Char) : Option (List (List Char × List Char)) :=
  parseTLVFuel l.length l

/-- The two-digit ASCII length field for a value of length `n`. -/
def lenChars (n : Nat) : List Char := [digitChar (n / 10), digitChar n]

/-- Modelled from the spec: render TLV records back to the payload string
(missing `lib/qris` renderer). -/
def renderTLV : List (List Char × List Char) → List Char
  | [] => []
  | (t, v) :: rs => t ++ lenChars v.length ++ v ++ renderTLV rs

/-- Well-formedness of TLV records: two-character tags and values that fit
the two-digit length field. -/
def TLVWf (rs : List (List Char × List Char)) : Prop :=
  ∀ r ∈ rs, r.1.length = 2 ∧ r.2.length ≤ 99

/-- One bit step of the reflected CRC with reversed polynomial `0x8408`
(the bit-reversal of `0x1021`). -/
def crcStep1 (c : Nat) : Nat :=
  if c % 2 = 1 then (c / 2) ^^^ 0x8408 else c / 2

def crcStepN : Nat → Nat → Nat
  | 0, c => c
  | k + 1, c => crcStepN k (crcStep1 c)

/-- Modelled from the spec: CRC-16/X.25 — polynomial `0x1021`, initial
`0xFFFF`, input and output reflected, XOR-out `0xFFFF` — in its standard
reflected implementation (missing `lib/qris` CRC routine). -/
def crc16x25 (bytes : List Nat) : Nat :=
  (bytes.foldl (fun c b => crcStepN 8 (c ^^^ b % 256)) 0xFFFF) ^^^ 0xFFFF

/-- One uppercase hex digit. -/
def hexDigitChar (n : Nat) : Char :=
  if n < 10 then Char.ofNat (48 + n) else Char.ofNat (55 + n)

/-- Four uppercase hex digits of a 16-bit value. -/
def toHex4 (n : Nat) : List Char :=
  [hexDigitChar (n / 4096 % 16), hexDigitChar (n / 256 % 16),
   hexDigitChar (n / 16 % 16), hexDigitChar (n % 16)]

/-- Case-insensitive comparison of hex digit strings. -/
def hexEqCI (a b : List Char) : Bool :=
  decide (a.map asciiUpperChar = b.map asciiUpperChar)

/-- Modelled from the spec: `validateQris` — the payload must parse as TLV
and the CRC recomputed over everything up to and including `"6304"` must
equal the trailing four hex digits, case-insensitively (missing `lib/qris`
`validateQris`). -/
def validateQrisL (l : List Char) : Bool :=
  match parseTLV l with
  | none => false
  | some _ =>
    let body := l.take (l.length - 4)
    let tail := l.drop (l.length - 4)
    decide (4 ≤ l.length) &&
      decide (body.drop (body.length - 4) = "6304".data) &&
      hexEqCI tail (toHex4 (crc16x25 (body.map Char.toNat)))

def validateQris (s : String) : Bool := validateQrisL s.data

/-- Strip an existing tag `63` (CRC) record. -/
def stripCrcTag (rs : List (List Char × List Char)) :
    List (List Char × List Char) :=
  rs.filter (fun r => decide (r.1 ≠ "63".data))

/-- Switch the merchant-presented-mode tag `01` to dynamic (`"12"`). -/
def setDynamicTag (rs : List (List Char × List Char)) :
    List (List Char × List Char) :=
  rs.map (fun r => if r.1 = "01".data then (r.1, "12".data) else r)

/-- Inject the amount at tag `54`, replacing an existing record or
inserting immediately before tag `58`. -/
def injectAmount : List (List Char × List Char) → List Char →
    List (List Char × List Char)
  | [], v => [("54".data, v)]
  | r :: rs, v =>
    if r.1 = "54".data then ("54".data, v) :: rs
    else if r.1 = "58".data then ("54".data, v) :: r :: rs
    else r :: injectAmount rs v

/-- The decimal digit characters of `n`, most significant first
(structural recursion on a fuel counter; `n + 1` units are enough). -/
def natDigitsFuel : Nat → Nat → List Char
  | 0, _ => []
  | fuel + 1, n =>
    if n < 10 then [digitChar n]
    else natDigitsFuel fuel (n / 10) ++ [digitChar n]

/-- The decimal digit characters of `n`. -/
def natDigits (n : Nat) : List Char := natDigitsFuel (n + 1) n

/-- Modelled from the spec: `generateDynamicQris` — parse the static
payload, strip tag 63, switch tag 01 to `"12"`, inject the amount at tag
54, append the literal `"6304"`, and append the four uppercase hex digits
of the CRC-16/X.25 over the preceding characters (missing `lib/qris`
`generateDynamicQris`). -/
def dynamicRecords (rs : List (List Char × List Char)) (amount : Nat) :
    List (List Char × List Char) :=
  injectAmount (setDynamicTag (stripCrcTag rs)) (natDigits amount)

/-- Append the four uppercase hex digits of the CRC-16/X.25 of a payload
prefix. -/
def withCrc (body : List Char) : List Char :=
  body ++ toHex4 (crc16x25 (body.map Char.toNat))

def generateDynamicQrisL (l : List Char) (amount : Nat) : List Char :=
  match parseTLV l with
  | none => []
  | some rs => withCrc (renderTLV (dynamicRecords rs amount) ++ "6304".data)

def generateDynamicQris (s : String) (amount : Nat) : String :=
  ⟨generateDynamicQrisL s.data amount⟩

theorem digitChar_spec (d : Nat) :
    isDigitChar (digitChar d) = true ∧ (digitChar d).toNat = 48 + d % 10 := by
  unfold digitChar
  obtain ⟨e, he, hlt⟩ : ∃ e, d % 10 = e ∧ e < 10 :=
    ⟨d % 10, rfl, Nat.mod_lt d (by decide)⟩
  rw [he]
  interval_cases e <;> exact ⟨by decide, by decide⟩

theorem take_append_sub4 (x y : List Char) (hy : y.length = 4) :
    (x ++ y).take ((x ++ y).length - 4) = x := by
  have h : (x ++ y).length - 4 = x.length := by
    rw [List.length_append, hy]
    omega
  rw [h, List.take_left]

theorem drop_append_sub4 (x y : List Char) (hy : y.length = 4) :
    (x ++ y).drop ((x ++ y).length - 4) = y := by
  have h : (x ++ y).length - 4 = x.length := by
    rw [List.length_append, hy]
    omega
  rw [h, List.drop_left]

theorem renderTLV_append (xs ys : List (List Char × List Char)) :
    renderTLV (xs ++ ys) = renderTLV xs ++ renderTLV ys := by
  induction xs with
  | nil => rfl
  | cons r xs ih =>
    obtain ⟨t, v⟩ := r
    simp [renderTLV, ih, List.append_assoc]

theorem renderTLV_length_ge (rs : List (List Char × List Char)) :
    rs.length ≤ (renderTLV rs).length := by
  induction rs with
  | nil => simp [renderTLV]
  | cons r rs ih =>
    obtain ⟨t, v⟩ := r
    simp only [renderTLV, lenChars, List.length_append, List.length_cons]
    simp at ih ⊢
    omega

theorem parseTLVFuel_renderTLV :
    ∀ (fuel : Nat) (rs : List (List Char × List Char)),
      TLVWf rs → rs.length ≤ fuel →
      parseTLVFuel fuel (renderTLV rs) = some rs := by
  intro fuel
  induction fuel with
  | zero =>
    intro rs hwf hle
    have hnil : rs = [] := List.length_eq_zero.mp (by omega)
    subst hnil
    rfl
  | succ fuel ih =>
    intro rs hwf hle
    rcases rs with _ | ⟨⟨t, v⟩, rs⟩
    · rfl
    · obtain ⟨h2, h99⟩ := hwf ⟨t, v⟩ (List.mem_cons_self _ _)
      simp only at h2 h99
      rcases t with _ | ⟨a, t⟩
      · simp at h2
      rcases t with _ | ⟨b, t⟩
      · simp at h2
      rcases t with _ | ⟨c, t⟩
      swap
      · simp at h2
      have hrender : renderTLV ((⟨[a, b], v⟩ : List Char × List Char) :: rs)
          = a :: b :: digitChar (v.length / 10) :: digitChar v.length ::
            (v ++ renderTLV rs) := by
        simp [renderTLV, lenChars]
      rw [hrender]
      simp only [parseTLVFuel]
      rw [if_pos ⟨(digitChar_spec _).1, (digitChar_spec _).1⟩]
      have hlen : ((digitChar (v.length / 10)).toNat - 48) * 10 +
          ((digitChar v.length).toNat - 48) = v.length := by
        rw [(digitChar_spec (v.length / 10)).2, (digitChar_spec v.length).2]
        omega
      rw [hlen]
      rw [if_pos (by rw [List.length_append]; omega)]
      rw [List.take_left, List.drop_left]
      rw [ih rs (fun x hx => hwf x (List.mem_cons_of_mem _ hx))
        (by simp at hle; omega)]

theorem parseTLV_renderTLV (rs : List (List Char × List Char))
    (hwf : TLVWf rs) : parseTLV (renderTLV rs) = some rs := by
  unfold parseTLV
  exact parseTLVFuel_renderTLV _ rs hwf (renderTLV_length_ge rs)

theorem parseTLVFuel_wf :
    ∀ (fuel : Nat) (l : List Char) (rs : List (List Char × List Char)),
      parseTLVFuel fuel l = some rs → TLVWf rs := by
  intro fuel
  induction fuel with
  | zero =>
    intro l rs h
    rcases l with _ | ⟨a, l⟩
    · simp only [parseTLVFuel] at h
      injection h with h
      subst h
      intro r hr
      cases hr
    · simp [parseTLVFuel] at h
  | succ fuel ih =>
    intro l rs h
    rcases l with _ | ⟨t1, _ | ⟨t2, _ | ⟨l1, _ | ⟨l2, rest⟩⟩⟩⟩
    · simp only [parseTLVFuel] at h
      injection h with h
      subst h
      intro r hr
      cases hr
    · simp [parseTLVFuel] at h
    · simp [parseTLVFuel] at h
    · simp [parseTLVFuel] at h
    · simp only [parseTLVFuel] at h
      split at h
      · split at h
        · rename_i hdig hlen
          split at h
          · rename_i rs0 heq
            injection h with h
            subst h
            intro r hr
            rcases List.mem_cons.mp hr with hr | hr
            · subst hr
              refine ⟨rfl, ?_⟩
              have hb1 : 48 ≤ l1.toNat ∧ l1.toNat ≤ 57 :=
                of_decide_eq_true hdig.1
              have hb2 : 48 ≤ l2.toNat ∧ l2.toNat ≤ 57 :=
                of_decide_eq_true hdig.2
              simp only [List.length_take]
              omega
            · exact ih _ _ heq r hr
          · cases h
        · cases h
      · cases h

theorem parseTLV_wf (l : List Char) (rs : List (List Char × List Char))
    (h : parseTLV l = some rs) : TLVWf rs :=
  parseTLVFuel_wf _ _ _ h

theorem TLVWf_stripCrcTag (rs : List (List Char × List Char))
    (h : TLVWf rs) : TLVWf (stripCrcTag rs) :=
  fun r hr => h r (List.mem_of_mem_filter hr)

theorem TLVWf_setDynamicTag (rs : List (List Char × List Char))
    (h : TLVWf rs) : TLVWf (setDynamicTag rs) := by
  intro r hr
  obtain ⟨r0, hr0, heq⟩ := List.mem_map.mp hr
  by_cases h01 : r0.1 = "01".data
  · rw [← heq, if_pos h01]
    exact ⟨(h r0 hr0).1, show ("12".data : List Char).length ≤ 99 from by decide⟩
  · rw [← heq, if_neg h01]
    exact h r0 hr0

theorem TLVWf_injectAmount (v : List Char) (hv : v.length ≤ 99) :
    ∀ rs, TLVWf rs → TLVWf (injectAmount rs v) := by
  intro rs
  induction rs with
  | nil =>
    intro _ r hr
    simp only [injectAmount, List.mem_singleton] at hr
    subst hr
    exact ⟨show ("54".data : List Char).length = 2 from by decide, hv⟩
  | cons r0 rs ih =>
    intro hwf r hr
    unfold injectAmount at hr
    by_cases h54 : r0.1 = "54".data
    · rw [if_pos h54] at hr
      rcases List.mem_cons.mp hr with hr | hr
      · subst hr
        exact ⟨show ("54".data : List Char).length = 2 from by decide, hv⟩
      · exact hwf r (List.mem_cons_of_mem _ hr)
    · rw [if_neg h54] at hr
      by_cases h58 : r0.1 = "58".data
      · rw [if_pos h58] at hr
        rcases List.mem_cons.mp hr with hr | hr
        · subst hr
          exact ⟨show ("54".data : List Char).length = 2 from by decide, hv⟩
        · exact hwf r hr
      · rw [if_neg h58] at hr
        rcases List.mem_cons.mp hr with hr | hr
        · subst hr
          exact hwf r (List.mem_cons_self _ _)
        · exact ih (fun x hx => hwf x (List.mem_cons_of_mem _ hx)) r hr

theorem natDigitsFuel_length_le :
    ∀ (fuel n k : Nat), n < fuel → 0 < k → n < 10 ^ k →
      (natDigitsFuel fuel n).length ≤ k := by
  intro fuel
  induction fuel with
  | zero =>
    intro n k h
    omega
  | succ fuel ih =>
    intro n k hf hk hnk
    simp only [natDigitsFuel]
    split
    · simp
      omega
    · rename_i h10
      have hkk : 2 ≤ k := by
        by_contra hc
        have hk1 : k = 1 := by omega
        subst hk1
        simp at hnk
        omega
      have hp : 10 ^ k = 10 ^ (k - 1) * 10 := by
        rw [← pow_succ]
        congr 1
        omega
      have hdiv : n / 10 < 10 ^ (k - 1) := by
        rw [Nat.div_lt_iff_lt_mul (by omega)]
        rw [← hp]
        exact hnk
      have := ih (n / 10) (k - 1) (by omega) (by omega) hdiv
      simp only [List.length_append, List.length_cons, List.length_nil]
      omega

theorem natDigits_length_le (n k : Nat) (hk : 0 < k) (h : n < 10 ^ k) :
    (natDigits n).length ≤ k :=
  natDigitsFuel_length_le (n + 1) n k (by omega) hk h

theorem validateQrisL_withCrc (body : List Char)
    (rs : List (List Char × List Char))
    (hparse : parseTLV (withCrc body) = some rs)
    (hsuf : body.drop (body.length - 4) = "6304".data) :
    validateQrisL (withCrc body) = true := by
  unfold validateQrisL
  rw [hparse]
  simp only []
  unfold withCrc
  rw [take_append_sub4 body (toHex4 (crc16x25 (body.map Char.toNat))) rfl,
    drop_append_sub4 body (toHex4 (crc16x25 (body.map Char.toNat))) rfl]
  rw [Bool.and_eq_true, Bool.and_eq_true]
  refine ⟨⟨?_, ?_⟩, ?_⟩
  · rw [decide_eq_true_eq, List.length_append]
    have h4 : (toHex4 (crc16x25 (body.map Char.toNat))).length = 4 := rfl
    omega
  · rw [decide_eq_true_eq]
    exact hsuf
  · unfold hexEqCI
    rw [decide_eq_true_eq]

theorem parseTLV_withCrc_body (rs3 : List (List Char × List Char))
    (hwf3 : TLVWf rs3) :
    parseTLV (withCrc (renderTLV rs3 ++ "6304".data))
      = some (rs3 ++ [("63".data,
          toHex4 (crc16x25
            (((renderTLV rs3 ++ "6304".data)).map Char.toNat)))]) := by
  have h63 : ∀ h4 : List Char, h4.length = 4 →
      ("6304".data ++ h4 : List Char) = renderTLV [("63".data, h4)] := by
    intro h4 hl
    rcases h4 with _ | ⟨a, h4⟩
    · exact absurd hl (by simp only [List.length_nil]; omega)
    rcases h4 with _ | ⟨b, h4⟩
    · exact absurd hl (by simp only [List.length_cons, List.length_nil]; omega)
    rcases h4 with _ | ⟨c, h4⟩
    · exact absurd hl (by simp only [List.length_cons, List.length_nil]; omega)
    rcases h4 with _ | ⟨d, h4⟩
    · exact absurd hl (by simp only [List.length_cons, List.length_nil]; omega)
    rcases h4 with _ | ⟨e, h4⟩
    swap
    · exact absurd hl (by simp only [List.length_cons]; omega)
    simp only [renderTLV, List.append_nil]
    rw [show ([a, b, c, d] : List Char).length = 4 from rfl]
    rw [show (['6', '3', '0', '4'] : List Char) = ['6', '3'] ++ lenChars 4
      from by decide]
  unfold withCrc
  rw [List.append_assoc,
    h63 (toHex4 (crc16x25 ((renderTLV rs3 ++ "6304".data).map Char.toNat)))
      rfl,
    ← renderTLV_append]
  refine parseTLV_renderTLV _ ?_
  intro r hr
  rcases List.mem_append.mp hr with hr | hr
  · exact hwf3 r hr
  · rw [List.mem_singleton] at hr
    subst hr
    exact ⟨show ("63".data : List Char).length = 2 from by decide,
      show (toHex4 _).length ≤ 99 from by
        rw [show (toHex4 _).length = 4 from rfl]; omega⟩

/-- C9 (spec-modelled: `lib/qris` is not among the provided sources; the
codec is modelled from §4.1 of the spec): for every payload accepted by
`validateQris` and every positive amount below `10^99` (so its decimal
digits fit a two-digit TLV length), the dynamic payload — tag 63 stripped,
the literal `"6304"` appended, and the four uppercase hex digits of
CRC-16/X.25 over the preceding characters appended — passes validation:
`validateQris (generateDynamicQris s n) = true`. -/
theorem validate_generate_spec (s : String) (n : Nat)
    (hvalid : validateQris s = true) (hpos : 0 < n) (hn : n < 10 ^ 99) :
    validateQris (generateDynamicQris s n) = true := by
  have hlen : (natDigits n).length ≤ 99 :=
    natDigits_length_le n 99 (by omega) hn
  show validateQrisL (generateDynamicQrisL s.data n) = true
  have hvalid2 : validateQrisL s.data = true := hvalid
  rcases hparse : parseTLV s.data with _ | rs
  · exfalso
    unfold validateQrisL at hvalid2
    rw [hparse] at hvalid2
    simp at hvalid2
  · have hwf : TLVWf rs := parseTLV_wf _ _ hparse
    have hwf3 : TLVWf (dynamicRecords rs n) :=
      TLVWf_injectAmount _ hlen _
        (TLVWf_setDynamicTag _ (TLVWf_stripCrcTag _ hwf))
    have hgen : generateDynamicQrisL s.data n
        = withCrc (renderTLV (dynamicRecords rs n) ++ "6304".data) := by
      unfold generateDynamicQrisL
      rw [hparse]
    rw [hgen]
    exact validateQrisL_withCrc _ _ (parseTLV_withCrc_body _ hwf3)
      (drop_append_sub4 _ _ rfl)

set_option maxRecDepth 10000 in
/-- Witness for C9: amount injection into a concrete valid static payload
yields a payload that validates. -/
theorem validate_generate_spec_witness :
    validateQris (generateDynamicQris "0002010102115802ID630462A4" 10001)
      = true :=
  validate_generate_spec "0002010102115802ID630462A4" 10001 (by decide)
    (by decide) (by norm_num)
